import Mathlib

/-!
Shallow embedding of the tsd-shell command-execution helper.

The embedding follows the most evolved iteration of the module
(src/unnamed/part_000); where other iterations of the same functions
(src/shell.ts, src/unnamed/part_001) behave differently, those variants
are embedded under names suffixed with the iteration they come from.

The external process boundary (Deno.run) is modelled as an oracle
function from the structured run options to an outcome, and thrown
exceptions (a failed spawn) are modelled with Except.  Lifecycle hooks
are modelled as functions producing a list of output events, and every
invocation of a hook is recorded, together with the argument it
received, so that theorems can speak about which hooks fired.
-/

/-! ## Command Tokenizer (commandComponents, src/shell.ts lines 3-20) -/

/-- Whitespace as matched by the regular-expression class used in the
source (the ASCII part; the claims only exercise the space character). -/
def isWs (c : Char) : Bool :=
  c = ' ' || c = '\t' || c = '\n' || c = '\r' || c = Char.ofNat 11 || c = Char.ofNat 12

/-- Characters matched by the first regex alternative: neither
whitespace nor a double quote. -/
def nonDelim (c : Char) : Bool :=
  !isWs c && c != '"'

/-- One step of the global regex scan of the source tokenizer.  At each
position the engine first tries the alternative for a maximal run of
non-whitespace non-quote characters, then the quoted alternative (which
needs a closing quote), and advances one character when neither
matches.  The source pushes the captured group when it is truthy and
the whole match otherwise, so an empty quoted run pushes the literal
two-quote text.  The fuel argument bounds the recursion; one unit is
spent per step and every step consumes at least one character, so fuel
equal to the length of the input is always enough. -/
def scanAuxF : Nat → List Char → List String
  | 0, _ => []
  | _ + 1, [] => []
  | fuel + 1, c :: rest =>
    if nonDelim c then
      ((c :: rest).takeWhile nonDelim).asString
        :: scanAuxF fuel ((c :: rest).dropWhile nonDelim)
    else if c = '"' then
      if (rest.takeWhile (fun d => d != '"')).length < rest.length then
        (if (rest.takeWhile (fun d => d != '"')).isEmpty then "\"\""
         else (rest.takeWhile (fun d => d != '"')).asString)
          :: scanAuxF fuel (rest.drop ((rest.takeWhile (fun d => d != '"')).length + 1))
      else
        scanAuxF fuel rest
    else
      scanAuxF fuel rest

/-- The regex scan run with enough fuel for the whole input. -/
def scanChars (l : List Char) : List String :=
  scanAuxF l.length l

/-- commandComponents: split the components of a command string with
double-quote support (src/shell.ts lines 3-20). -/
def commandComponents (s : String) : List String :=
  scanChars s.data

/-! ## Data model -/

/-- Structured command specification (the fields of Deno.RunOptions the
module reads or writes).  Optional fields model presence of the
corresponding JavaScript object property. -/
structure DenoRunOpts where
  cmd : List String
  cwd : Option String := none
  env : Option (List (String × String)) := none
  stdout : Option String := none
  stderr : Option String := none
deriving DecidableEq

/-- Execution Result: the tagged variant produced by the Runner.  The
source also stores the run configuration inside the result; that field
is a back-reference to the very options record that carries the hooks
(a cycle a first-order embedding cannot hold) and no claim reads it, so
it is omitted here. -/
inductive RunShellCommandResult where
  | dryRun (denoRunOpts : DenoRunOpts)
  | exec (denoRunOpts : DenoRunOpts) (code : Nat) (stdOut stdErrOutput : String)
deriving DecidableEq

/-- Structured spawn parameters carried by either result variant. -/
def RunShellCommandResult.denoRunOpts : RunShellCommandResult → DenoRunOpts
  | .dryRun o => o
  | .exec o _ _ _ => o

/-- isDryRunResult discriminator (src/shell.ts lines 32-36). -/
def isDryRunResult : RunShellCommandResult → Bool
  | .dryRun _ => true
  | .exec _ _ _ _ => false

/-- isExecutionResult discriminator (src/shell.ts lines 45-49). -/
def isExecutionResult : RunShellCommandResult → Bool
  | .dryRun _ => false
  | .exec _ _ _ _ => true

/-- The two process-wide output streams. -/
inductive StdStream where
  | stdout
  | stderr
deriving DecidableEq

/-- One write to a process-wide stream (console.log and writeSync are
both modelled as an event carrying the text that is written;
console.log appends a newline). -/
structure OutEvent where
  stream : StdStream
  text : String
deriving DecidableEq

/-- Run Configuration (RunShellCommandOptions of src/unnamed/part_000
lines 55-62).  Hooks receive the final Result and are modelled by the
output they write. -/
structure RunShellCommandOptions where
  dryRun : Option Bool := none
  onDryRun : Option (RunShellCommandResult → List OutEvent) := none
  onCmdComplete : Option (RunShellCommandResult → List OutEvent) := none
  enhanceRunShellCommandResult : Option (RunShellCommandResult → RunShellCommandResult) := none

/-- quietShellOutputOptions (src/unnamed/part_000 lines 64-67). -/
def quietShellOutputOptions : RunShellCommandOptions :=
  { onDryRun := some fun _ => [],
    onCmdComplete := some fun _ => [] }

/-- JavaScript truthiness of an optional boolean field. -/
def truthyB (b : Option Bool) : Bool :=
  b.getD false

/-- JavaScript truthiness of an optional string field (an absent field
and the empty string are both falsy). -/
def optStrTruthy : Option String → Bool
  | some s => s != ""
  | none => false

/-- Header description returned by a block-header callback
(CliVerboseShellBlockHeaderResult, src/unnamed/part_000 lines 85-89). -/
structure CliVerboseShellBlockHeaderResult where
  headerText : Option String := none
  hideBlock : Option Bool := none
  separatorText : Option String := none

/-- Rendering used for the console.dir dump of an environment mapping
(only its occurrence matters to the claims, not its exact shape). -/
def envDirText (e : List (String × String)) : String :=
  String.intercalate "," (e.map fun p => p.1 ++ "=" ++ p.2)

/-! ## Output-formatting option builders -/

/-- Default on-dry-run hook produced by the block-output builder
(src/unnamed/part_000 lines 102-117): header text (if truthy) via
writeSync to standard output, a cd line when a working directory is
set, the environment dump when set, the joined command tokens, then
separator text (if truthy). -/
def blockOnDryRunDefault
    (blockHeader : RunShellCommandResult → CliVerboseShellBlockHeaderResult)
    (r : RunShellCommandResult) : List OutEvent :=
  let h := blockHeader r
  (if optStrTruthy h.headerText then [⟨.stdout, h.headerText.getD ""⟩] else [])
    ++ (match r.denoRunOpts.cwd with
        | some c => if c != "" then [⟨.stdout, "cd " ++ c ++ "\n"⟩] else []
        | none => [])
    ++ (match r.denoRunOpts.env with
        | some e => [⟨.stdout, envDirText e ++ "\n"⟩]
        | none => [])
    ++ [⟨.stdout, String.intercalate " " r.denoRunOpts.cmd ++ "\n"⟩]
    ++ (if optStrTruthy h.separatorText then [⟨.stdout, h.separatorText.getD ""⟩] else [])

/-- Default on-complete hook produced by the block-output builder
(src/unnamed/part_000 lines 118-131): stream selected by exit code,
header text, the captured body of the selected stream unless hideBlock,
then separator text.  The Runner only ever passes an exec result to
this hook; on a dry-run value the source would fault, which the model
renders as no output. -/
def blockOnCmdCompleteDefault
    (blockHeader : RunShellCommandResult → CliVerboseShellBlockHeaderResult)
    (r : RunShellCommandResult) : List OutEvent :=
  match r with
  | .dryRun _ => []
  | .exec _ code so se =>
    let w : StdStream := if code = 0 then .stdout else .stderr
    let h := blockHeader r
    (if optStrTruthy h.headerText then [⟨w, h.headerText.getD ""⟩] else [])
      ++ (if truthyB h.hideBlock then [] else [⟨w, if code = 0 then so else se⟩])
      ++ (if optStrTruthy h.separatorText then [⟨w, h.separatorText.getD ""⟩] else [])

/-- cliVerboseShellBlockOutputOptions, iteration of
src/unnamed/part_000 lines 95-133: both hooks yield to a hook supplied
by the override configuration. -/
def cliVerboseShellBlockOutputOptions
    (blockHeader : RunShellCommandResult → CliVerboseShellBlockHeaderResult)
    (override : Option RunShellCommandOptions) : RunShellCommandOptions :=
  { onDryRun :=
      some ((override.bind (fun o => o.onDryRun)).getD (blockOnDryRunDefault blockHeader)),
    onCmdComplete :=
      some ((override.bind (fun o => o.onCmdComplete)).getD (blockOnCmdCompleteDefault blockHeader)) }

/-- cliVerboseShellBlockOutputOptions, iteration of src/shell.ts lines
92-130: only the on-complete hook yields to the override; the built
on-dry-run hook is always the formatting default. -/
def cliVerboseShellBlockOutputOptionsShellTs
    (blockHeader : RunShellCommandResult → CliVerboseShellBlockHeaderResult)
    (override : Option RunShellCommandOptions) : RunShellCommandOptions :=
  { onDryRun := some (blockOnDryRunDefault blockHeader),
    onCmdComplete :=
      some ((override.bind (fun o => o.onCmdComplete)).getD (blockOnCmdCompleteDefault blockHeader)) }

/-- Default on-complete hook of the src/unnamed/part_001 iteration
(lines 114-131): header and separator always go through console.log to
standard output (the header behind a %c style directive), and unless
hideBlock both captured bodies are written, the stdout bytes to
standard output and the stderr bytes to standard error.  The separator
guard there tests for undefined, not truthiness. -/
def blockOnCmdCompleteP001
    (blockHeader : RunShellCommandResult → CliVerboseShellBlockHeaderResult)
    (r : RunShellCommandResult) : List OutEvent :=
  match r with
  | .dryRun _ => []
  | .exec _ _ so se =>
    let h := blockHeader r
    (if optStrTruthy h.headerText then [⟨.stdout, "%c" ++ h.headerText.getD "" ++ "\n"⟩] else [])
      ++ (if truthyB h.hideBlock then [] else [⟨.stdout, so⟩, ⟨.stderr, se⟩])
      ++ (match h.separatorText with
          | some s => [⟨.stdout, s ++ "\n"⟩]
          | none => [])

/-! ## Command Runner -/

/-- Command specification accepted by the Runner: a raw string or the
structured form. -/
inductive RunCommandSpec where
  | str (s : String)
  | opts (o : DenoRunOpts)
deriving DecidableEq

/-- Conversion of a command specification to the structured form
(src/unnamed/part_000 lines 140-144): a string is tokenized, the
structured form is taken as is. -/
def structuredOf : RunCommandSpec → DenoRunOpts
  | .str s => { cmd := commandComponents s }
  | .opts o => o

/-- The mutation the Runner performs before spawning: stdout and
stderr are set to piped, every other field is untouched
(src/unnamed/part_000 lines 159-160). -/
def withPiped (o : DenoRunOpts) : DenoRunOpts :=
  { o with stdout := some "piped", stderr := some "piped" }

/-- Outcome of the external process boundary (Deno.run together with
status, output and stderrOutput): either the process ran to completion
or the spawn itself failed (a thrown exception in the source). -/
inductive ExecOutcome where
  | completed (code : Nat) (stdOut stdErrOutput : String)
  | spawnFailure (msg : String)
deriving DecidableEq

/-- Record of one lifecycle-hook invocation, carrying the argument the
hook received. -/
inductive HookFired where
  | dryRunHook (r : RunShellCommandResult)
  | cmdCompleteHook (r : RunShellCommandResult)
deriving DecidableEq

/-- Application of the optional result transformation
(enhanceRunShellCommandResult). -/
def applyEnhance (opts : RunShellCommandOptions) (r : RunShellCommandResult) :
    RunShellCommandResult :=
  match opts.enhanceRunShellCommandResult with
  | some f => f r
  | none => r

/-- What one call to runShellCommand produced: the returned Result, the
hook invocations in order, the output the fired hook wrote, and the
final state of the structured command options object (which the caller
owns when it passed the structured form, since the source aliases it). -/
structure RunOutcome where
  result : RunShellCommandResult
  hookCalls : List HookFired
  output : List OutEvent
  commandFinal : DenoRunOpts
deriving DecidableEq

/-- runShellCommand (src/unnamed/part_000 lines 135-184).  The exec
argument is the oracle for the external process boundary; a spawn
failure propagates as an Except error, never as a Result. -/
def runShellCommand (exec : DenoRunOpts → ExecOutcome) (command : RunCommandSpec)
    (rsCmdOpts : RunShellCommandOptions) : Except String RunOutcome :=
  let denoRunOpts := structuredOf command
  if truthyB rsCmdOpts.dryRun then
    let drr := RunShellCommandResult.dryRun denoRunOpts
    let result := applyEnhance rsCmdOpts drr
    .ok { result := result,
          hookCalls := match rsCmdOpts.onDryRun with
            | some _ => [.dryRunHook result]
            | none => [],
          output := match rsCmdOpts.onDryRun with
            | some f => f result
            | none => [],
          commandFinal := denoRunOpts }
  else
    let ro := withPiped denoRunOpts
    match exec ro with
    | .spawnFailure msg => .error msg
    | .completed code so se =>
      let cer := RunShellCommandResult.exec ro code so se
      let result := applyEnhance rsCmdOpts cer
      .ok { result := result,
            hookCalls := match rsCmdOpts.onCmdComplete with
              | some _ => [.cmdCompleteHook result]
              | none => [],
            output := match rsCmdOpts.onCmdComplete with
              | some f => f result
              | none => [],
            commandFinal := ro }

/-! ## Walk Dispatcher (walkShellCommand, src/unnamed/part_000 lines 223-285) -/

/-- A filesystem traversal entry (the three fields the module reads). -/
structure WalkEntry where
  path : String
  name : String
  isDirectory : Bool
deriving DecidableEq

/-- Per-entry context (WalkShellEntryContext, src/unnamed/part_000
lines 200-204). -/
structure WalkShellEntryContext where
  we : WalkEntry
  relPath : String
  index : Nat
deriving DecidableEq

/-- What a per-entry command supplier yields: a bare command
specification or a command together with a per-entry options
override. -/
inductive WalkCommandChoice where
  | cmd (c : RunCommandSpec)
  | cmdWithOptions (c : RunCommandSpec) (ovr : RunShellCommandOptions)

/-- Per-entry command supplier. -/
def WalkShellCommandSupplier : Type :=
  WalkShellEntryContext → WalkCommandChoice

/-- Walk Result (src/unnamed/part_000 lines 217-221). -/
structure WalkShellCommandResult where
  totalEntriesEncountered : Nat
  filteredEntriesEncountered : Nat
deriving DecidableEq

/-- Walk-level configuration (WalkShellCommandOptions,
src/unnamed/part_000 lines 186-198), extending the run configuration.
The result-observer hook is modelled like the other hooks, by the
output it writes. -/
structure WalkShellCommandOptions extends RunShellCommandOptions where
  entryFilter : Option (WalkShellEntryContext → Bool) := none
  relPathSupplier : Option (WalkEntry → String) := none
  onRunShellCommandResult :
    Option (WalkShellEntryContext → RunShellCommandResult → List OutEvent) := none
  enhanceWalkEntryContext : Option (WalkShellEntryContext → WalkShellEntryContext) := none
  enhanceWalkResult : Option (WalkShellCommandResult → WalkShellCommandResult) := none

/-- Record of one invocation of the walk-level result-observer hook:
the context fields spread together with the resolved Result. -/
structure WalkTraceStep where
  ctx : WalkShellEntryContext
  result : RunShellCommandResult
deriving DecidableEq

/-- Relative path of an entry: caller-supplied relativizer when
configured, otherwise the path relativized against the current working
directory (the latter modelled by the rel oracle). -/
def relPathOf (rel : String → String) (wopts : WalkShellCommandOptions)
    (we : WalkEntry) : String :=
  match wopts.relPathSupplier with
  | some f => f we
  | none => rel we.path

/-- Context built for one entry: the fresh record, replaced by the
caller-supplied enhancement when configured
(src/unnamed/part_000 lines 234-237). -/
def walkContext (rel : String → String) (wopts : WalkShellCommandOptions)
    (we : WalkEntry) (filteredIndex : Nat) : WalkShellEntryContext :=
  let c : WalkShellEntryContext := ⟨we, relPathOf rel wopts we, filteredIndex⟩
  match wopts.enhanceWalkEntryContext with
  | some f => f c
  | none => c

/-- Entry filter test (src/unnamed/part_000 line 238): pass when no
filter is configured or the filter accepts the context. -/
def walkPasses (wopts : WalkShellCommandOptions) (ctx : WalkShellEntryContext) : Bool :=
  match wopts.entryFilter with
  | some f => f ctx
  | none => true

/-- Block-header callback the walk builds for one entry
(src/unnamed/part_000 lines 239-244): the relative path plus newline as
header, a newline separator. -/
def walkBlockHeader (relPath : String) :
    RunShellCommandResult → CliVerboseShellBlockHeaderResult :=
  fun _ => { headerText := some (relPath ++ "\n"), separatorText := some "\n" }

/-- Object-spread of the block-output builder over a base
configuration, as in the source expression
spread of base then spread of cliVerboseShellBlockOutputOptions
(src/unnamed/part_000 lines 251-254 and 262-265): the builder result
owns exactly the two hook fields, so only those are replaced. -/
def spreadBlock
    (blockHeader : RunShellCommandResult → CliVerboseShellBlockHeaderResult)
    (o : RunShellCommandOptions) : RunShellCommandOptions :=
  { o with
    onDryRun := (cliVerboseShellBlockOutputOptions blockHeader (some o)).onDryRun,
    onCmdComplete := (cliVerboseShellBlockOutputOptions blockHeader (some o)).onCmdComplete }

/-- Command of the supplied choice. -/
def walkCmdOf : WalkCommandChoice → RunCommandSpec
  | .cmd c => c
  | .cmdWithOptions c _ => c

/-- Effective run configuration the walk passes to the Runner
(src/unnamed/part_000 lines 246-265): for a bare command, the
walk-level configuration with the block hooks spread over it; for a
command with a per-entry override, the override with the block hooks
spread over it (the walk-level configuration is not consulted). -/
def walkEffOf (blockHeader : RunShellCommandResult → CliVerboseShellBlockHeaderResult)
    (wopts : WalkShellCommandOptions) : WalkCommandChoice → RunShellCommandOptions
  | .cmd _ => spreadBlock blockHeader wopts.toRunShellCommandOptions
  | .cmdWithOptions _ ovr => spreadBlock blockHeader ovr

/-- The sequential entry loop of walkShellCommand, with the two
counters as accumulators.  Returns the final counters together with the
ordered record of result-observer invocations; a Runner error
propagates uncaught and aborts the remaining traversal. -/
def walkGo (exec : DenoRunOpts → ExecOutcome) (rel : String → String)
    (command : WalkShellCommandSupplier) (wopts : WalkShellCommandOptions) :
    List WalkEntry → Nat → Nat → Except String (Nat × Nat × List WalkTraceStep)
  | [], fileIndex, filteredIndex => .ok (fileIndex, filteredIndex, [])
  | we :: rest, fileIndex, filteredIndex =>
    let ctx := walkContext rel wopts we filteredIndex
    if walkPasses wopts ctx then
      let bh := walkBlockHeader (relPathOf rel wopts we)
      match runShellCommand exec (walkCmdOf (command ctx)) (walkEffOf bh wopts (command ctx)) with
      | .error e => .error e
      | .ok out =>
        match walkGo exec rel command wopts rest (fileIndex + 1) (filteredIndex + 1) with
        | .error e => .error e
        | .ok (t, f, tr) =>
          .ok (t, f,
            (match wopts.onRunShellCommandResult with
             | some _ => [⟨ctx, out.result⟩]
             | none => []) ++ tr)
    else
      walkGo exec rel command wopts rest (fileIndex + 1) filteredIndex

/-- walkShellCommand (src/unnamed/part_000 lines 223-285): run the
entry loop from zero counters, then build the Walk Result and apply the
optional result enhancement. -/
def walkShellCommand (exec : DenoRunOpts → ExecOutcome) (rel : String → String)
    (walkEntries : List WalkEntry) (command : WalkShellCommandSupplier)
    (wopts : WalkShellCommandOptions) :
    Except String (WalkShellCommandResult × List WalkTraceStep) :=
  match walkGo exec rel command wopts walkEntries 0 0 with
  | .error e => .error e
  | .ok (t, f, tr) =>
    let result : WalkShellCommandResult :=
      { totalEntriesEncountered := t, filteredEntriesEncountered := f }
    .ok ((match wopts.enhanceWalkResult with
          | some f => f result
          | none => result), tr)

/-! ## Definitions written from the words of the spec and claims, for
comparison with the source-translated definitions above -/

/-- Token shape asserted by claim C2: a token is a run without
whitespace or quotes, or the contents of a quoted run with the quotes
stripped; in both cases the token contains no double-quote
character. -/
def claimTokenNoQuote (t : String) : Bool :=
  t.data.all (fun c => c != '"')

/-- Field-wise object-spread merge of run configurations: fields of
the second argument, when present, win over the first. -/
def optionsMergeOver (base over : RunShellCommandOptions) : RunShellCommandOptions :=
  { dryRun := over.dryRun <|> base.dryRun,
    onDryRun := over.onDryRun <|> base.onDryRun,
    onCmdComplete := over.onCmdComplete <|> base.onCmdComplete,
    enhanceRunShellCommandResult :=
      over.enhanceRunShellCommandResult <|> base.enhanceRunShellCommandResult }

/-- Modelled from the words of claim C3: the effective configuration is
the per-entry override merged over the walk-level configuration, with
the block-formatting hooks for the entry merged in last (the builder
itself yields to explicitly supplied hooks). -/
def specEffectiveRunOptions
    (blockHeader : RunShellCommandResult → CliVerboseShellBlockHeaderResult)
    (walkLevel override : RunShellCommandOptions) : RunShellCommandOptions :=
  spreadBlock blockHeader (optionsMergeOver walkLevel override)

/-- Modelled from the words of claim C5: select the output stream by
exit code (zero to standard output, nonzero to standard error), print
the header text to that stream, print exactly one captured body, the
stdout bytes on success and the stderr bytes on failure, unless the
hide-body flag is set, then print the separator text. -/
def claimBlockCompleteOutput (h : CliVerboseShellBlockHeaderResult)
    (code : Nat) (so se : String) : List OutEvent :=
  let w : StdStream := if code = 0 then .stdout else .stderr
  (if optStrTruthy h.headerText then [⟨w, h.headerText.getD ""⟩] else [])
    ++ (if truthyB h.hideBlock then []
        else if code = 0 then [⟨w, so⟩] else [⟨w, se⟩])
    ++ (if optStrTruthy h.separatorText then [⟨w, h.separatorText.getD ""⟩] else [])

/-! ## Concrete fixtures used by witnesses and counterexamples -/

/-- A hook that writes nothing (the hooks of quietShellOutputOptions). -/
def quietOnDryRun : RunShellCommandResult → List OutEvent :=
  fun _ => []

/-- Structured form of the tokenized dry-run test command. -/
def c1runOpts : DenoRunOpts :=
  { cmd := ["git", "status", "-s"] }

/-- Dry-run configuration with both hooks supplied. -/
def c1opts : RunShellCommandOptions :=
  { dryRun := some true,
    onDryRun := some fun _ => [],
    onCmdComplete := some fun _ => [] }

/-- Process oracle that always succeeds with exit code zero. -/
def okOracle : DenoRunOpts → ExecOutcome :=
  fun _ => .completed 0 "" ""

/-- Expected outcome of the dry-run witness call. -/
def c1out : RunOutcome :=
  { result := .dryRun c1runOpts,
    hookCalls := [.dryRunHook (.dryRun c1runOpts)],
    output := [],
    commandFinal := c1runOpts }

/-- A single traversal entry. -/
def c3entry : WalkEntry :=
  { path := "p", name := "p", isDirectory := false }

/-- Walk-level configuration with the dry-run flag set and an observer
supplied. -/
def c3wopts : WalkShellCommandOptions :=
  { dryRun := some true,
    onRunShellCommandResult := some fun _ _ => [] }

/-- Supplier yielding a command together with an empty per-entry
override. -/
def c3supplier : WalkShellCommandSupplier :=
  fun _ => .cmdWithOptions (.str "x") {}

/-- Block-header callback returning no header fields. -/
def c4bh : RunShellCommandResult → CliVerboseShellBlockHeaderResult :=
  fun _ => {}

/-- Override configuration supplying its own (quiet) on-dry-run hook. -/
def c4ov : RunShellCommandOptions :=
  { onDryRun := some quietOnDryRun }

/-- A concrete dry-run result to evaluate hooks on. -/
def c4drr : RunShellCommandResult :=
  .dryRun { cmd := ["x"] }

/-- Block-header callback with header text and separator text. -/
def c5bh : RunShellCommandResult → CliVerboseShellBlockHeaderResult :=
  fun _ => { headerText := some "h", separatorText := some "s" }

/-- Spawn parameters of the concrete executed result used for the
block-output hooks. -/
def c5runOpts : DenoRunOpts :=
  { cmd := ["x"] }

/-- Traversal entries for the walk witnesses. -/
def w67a : WalkEntry := { path := "a", name := "a", isDirectory := false }

/-- Traversal entry rejected by the witness filter. -/
def w67b : WalkEntry := { path := "b", name := "b", isDirectory := false }

/-- Third traversal entry of the walk witnesses. -/
def w67c : WalkEntry := { path := "c", name := "c", isDirectory := false }

/-- Per-entry rejection predicate of the walk witnesses. -/
def w67g : WalkEntry → Bool :=
  fun we => we.name != "b"

/-- Entry filter of the walk witnesses, a function of the entry only. -/
def w67filter : WalkShellEntryContext → Bool :=
  fun c => w67g c.we

/-- Quiet result observer. -/
def w67obs : WalkShellEntryContext → RunShellCommandResult → List OutEvent :=
  fun _ _ => []

/-- Walk-level configuration of the walk witnesses. -/
def w67wopts : WalkShellCommandOptions :=
  { entryFilter := some w67filter,
    onRunShellCommandResult := some w67obs }

/-- Supplier returning the same string command for every entry. -/
def w67sup : WalkShellCommandSupplier :=
  fun _ => .cmd (.str "x")

/-- Executed result every witness entry produces. -/
def w67rr : RunShellCommandResult :=
  .exec { cmd := ["x"], stdout := some "piped", stderr := some "piped" } 0 "" ""

/-- Walk Result of the witness walk. -/
def w67res : WalkShellCommandResult :=
  { totalEntriesEncountered := 3, filteredEntriesEncountered := 2 }

/-- Observer trace of the witness walk. -/
def w67tr : List WalkTraceStep :=
  [⟨⟨w67a, "a", 0⟩, w67rr⟩, ⟨⟨w67c, "c", 1⟩, w67rr⟩]

/-- Oracle whose every spawn fails. -/
def c8oracle : DenoRunOpts → ExecOutcome :=
  fun _ => .spawnFailure "spawn failed"

/-- Supplier of the spawn-failure witness. -/
def c8sup : WalkShellCommandSupplier :=
  fun _ => .cmd (.str "x")

/-- Second entry of the spawn-failure witness, never reached. -/
def c8we2 : WalkEntry := { path := "q", name := "q", isDirectory := false }

/-- Structured command specification of the frame-effect witness, with
every optional field set. -/
def c10in : DenoRunOpts :=
  { cmd := ["git"], cwd := some "d", env := some [("A", "1")] }

/-- Oracle of the frame-effect witness. -/
def c10oracle : DenoRunOpts → ExecOutcome :=
  fun _ => .completed 7 "so" "se"

/-- Expected outcome of the frame-effect witness call. -/
def c10out : RunOutcome :=
  { result := .exec (withPiped c10in) 7 "so" "se",
    hookCalls := [],
    output := [],
    commandFinal := withPiped c10in }

/-! ## Theorems -/

/-- The fuel argument of the scan is irrelevant as soon as it covers
the length of the input. -/
theorem scanAuxF_congr :
    ∀ (f1 : Nat) (l : List Char) (f2 : Nat), l.length ≤ f1 → l.length ≤ f2 →
      scanAuxF f1 l = scanAuxF f2 l := by
  intro f1
  induction f1 with
  | zero =>
    intro l f2 h1 _
    have hl : l = [] := List.length_eq_zero.mp (Nat.le_zero.mp h1)
    subst hl
    cases f2 <;> rfl
  | succ f ih =>
    intro l f2 h1 h2
    cases l with
    | nil => cases f2 <;> rfl
    | cons c rest =>
      cases f2 with
      | zero => simp at h2
      | succ f2' =>
        simp only [List.length_cons] at h1 h2
        have hr1 : rest.length ≤ f := Nat.le_of_succ_le_succ h1
        have hr2 : rest.length ≤ f2' := Nat.le_of_succ_le_succ h2
        simp only [scanAuxF]
        by_cases hc : nonDelim c = true
        · rw [if_pos hc, if_pos hc]
          have hd : (c :: rest).dropWhile nonDelim = rest.dropWhile nonDelim := by
            rw [List.dropWhile_cons, if_pos hc]
          rw [hd]
          have hlen : (rest.dropWhile nonDelim).length ≤ rest.length :=
            (List.dropWhile_sublist _).length_le
          rw [ih _ _ (hlen.trans hr1) (hlen.trans hr2)]
        · rw [if_neg hc, if_neg hc]
          by_cases hq : c = '"'
          · rw [if_pos hq, if_pos hq]
            by_cases hlt : (rest.takeWhile (fun d => d != '"')).length < rest.length
            · rw [if_pos hlt, if_pos hlt]
              have hlen :
                  (rest.drop ((rest.takeWhile (fun d => d != '"')).length + 1)).length
                    ≤ rest.length := by
                rw [List.length_drop]
                omega
              rw [ih _ _ (hlen.trans hr1) (hlen.trans hr2)]
            · rw [if_neg hlt, if_neg hlt]
              rw [ih _ _ hr1 hr2]
          · rw [if_neg hq, if_neg hq]
            rw [ih _ _ hr1 hr2]

/-- Shape of every token the scan produces: nonempty, and either free
of double-quote characters or the literal two-quote text pushed for an
empty quoted run. -/
theorem scanAuxF_tokens :
    ∀ (fuel : Nat) (l : List Char) (t : String), t ∈ scanAuxF fuel l →
      t ≠ "" ∧ (claimTokenNoQuote t = true ∨ t = "\"\"") := by
  intro fuel
  induction fuel with
  | zero =>
    intro l t ht
    simp [scanAuxF] at ht
  | succ f ih =>
    intro l t ht
    cases l with
    | nil => simp [scanAuxF] at ht
    | cons c rest =>
      simp only [scanAuxF] at ht
      by_cases hc : nonDelim c = true
      · rw [if_pos hc] at ht
        rcases List.mem_cons.mp ht with h | h
        · subst h
          have htw : (c :: rest).takeWhile nonDelim = c :: rest.takeWhile nonDelim := by
            rw [List.takeWhile_cons, if_pos hc]
          constructor
          · rw [htw]
            intro hemp
            have h2 : c :: rest.takeWhile nonDelim = ([] : List Char) :=
              congrArg String.data hemp
            simp at h2
          · left
            rw [claimTokenNoQuote, List.all_eq_true]
            intro x hx
            have hx' : x ∈ (c :: rest).takeWhile nonDelim := hx
            have hnd := List.mem_takeWhile_imp hx'
            simp only [nonDelim, Bool.and_eq_true] at hnd
            exact hnd.2
        · exact ih _ _ h
      · rw [if_neg hc] at ht
        by_cases hq : c = '"'
        · rw [if_pos hq] at ht
          by_cases hlt : (rest.takeWhile (fun d => d != '"')).length < rest.length
          · rw [if_pos hlt] at ht
            rcases List.mem_cons.mp ht with h | h
            · by_cases hemp : (rest.takeWhile (fun d => d != '"')).isEmpty = true
              · rw [if_pos hemp] at h
                subst h
                exact ⟨by decide, Or.inr rfl⟩
              · rw [if_neg hemp] at h
                subst h
                constructor
                · intro he
                  have h2 : rest.takeWhile (fun d => d != '"') = ([] : List Char) :=
                    congrArg String.data he
                  rw [h2] at hemp
                  simp at hemp
                · left
                  rw [claimTokenNoQuote, List.all_eq_true]
                  intro x hx
                  have hx' : x ∈ rest.takeWhile (fun d => d != '"') := hx
                  have hxq := List.mem_takeWhile_imp hx'
                  exact hxq
            · exact ih _ _ h
          · rw [if_neg hlt] at ht
            exact ih _ _ ht
        · rw [if_neg hq] at ht
          exact ih _ _ ht

/-- C2 counterexample: on the input consisting of one empty quoted run
the tokenizer yields the literal two-quote token, which is neither a
run of non-quote characters nor quoted contents with the quotes
stripped (the source pushes the whole match because the captured empty
group is falsy). -/
theorem commandComponents_quoted_empty_cex :
    commandComponents "\"\"" = ["\"\""] ∧ claimTokenNoQuote "\"\"" = false :=
  ⟨rfl, rfl⟩

/-- C2 (amended): every token the tokenizer produces is nonempty and
either contains no double-quote character (a literal run, or the
contents of a nonempty quoted run with the quotes stripped) or is the
literal two-quote token produced for an empty quoted run; and the three
concrete examples of the claim hold. -/
theorem commandComponents_tokens :
    (∀ (s : String) (t : String), t ∈ commandComponents s →
       t ≠ "" ∧ (claimTokenNoQuote t = true ∨ t = "\"\""))
  ∧ commandComponents "a \"b c\" d" = ["a", "b c", "d"]
  ∧ commandComponents "" = []
  ∧ commandComponents "git status -s" = ["git", "status", "-s"] := by
  refine ⟨?_, rfl, rfl, rfl⟩
  intro s t ht
  exact scanAuxF_tokens _ _ _ ht

/-- Witness for the amended claim C2 at a concrete token. -/
theorem commandComponents_tokens_witness :
    ("git" ∈ commandComponents "git status -s")
  ∧ ("git" ≠ "" ∧ (claimTokenNoQuote "git" = true ∨ "git" = "\"\"")) :=
  ⟨by decide, commandComponents_tokens.1 "git status -s" "git" (by decide)⟩

/-- C9: the tokenizer treats an unterminated double quote permissively;
the quote alternative fails without a closing quote, the scan advances
past the quote, and the following characters are consumed as ordinary
literal tokens.  The model is a total function, so no error is
raised. -/
theorem unterminated_quote_permissive :
    (∀ l : List Char, '"' ∉ l → scanChars ('"' :: l) = scanChars l)
  ∧ commandComponents "git \"status" = ["git", "status"] := by
  refine ⟨?_, rfl⟩
  intro l hq
  show scanAuxF ('"' :: l).length ('"' :: l) = scanAuxF l.length l
  have hlen : ('"' :: l).length = l.length + 1 := rfl
  rw [hlen]
  simp only [scanAuxF]
  have hc : ¬ nonDelim '"' = true := by decide
  rw [if_neg hc, if_pos trivial]
  have htw : l.takeWhile (fun d => d != '"') = l := by
    rw [List.takeWhile_eq_self_iff]
    intro x hx
    simp only [bne_iff_ne, ne_eq]
    intro hxeq
    exact hq (hxeq ▸ hx)
  rw [htw]
  rw [if_neg (lt_irrefl l.length)]

/-- Witness for claim C9 at a concrete unterminated-quote input. -/
theorem unterminated_quote_permissive_witness :
    ('"' ∉ ['s'])
  ∧ scanChars ('"' :: ['s']) = scanChars ['s'] :=
  ⟨by decide, unterminated_quote_permissive.1 ['s'] (by decide)⟩

/-- Dry-run unfolding of the Runner. -/
theorem runShellCommand_dry (exec : DenoRunOpts → ExecOutcome)
    (cmd : RunCommandSpec) (opts : RunShellCommandOptions)
    (hd : truthyB opts.dryRun = true) :
    runShellCommand exec cmd opts =
      .ok { result := applyEnhance opts (.dryRun (structuredOf cmd)),
            hookCalls := match opts.onDryRun with
              | some _ => [.dryRunHook (applyEnhance opts (.dryRun (structuredOf cmd)))]
              | none => [],
            output := match opts.onDryRun with
              | some f => f (applyEnhance opts (.dryRun (structuredOf cmd)))
              | none => [],
            commandFinal := structuredOf cmd } := by
  simp [runShellCommand, hd]

/-- Completed-run unfolding of the Runner. -/
theorem runShellCommand_run (exec : DenoRunOpts → ExecOutcome)
    (cmd : RunCommandSpec) (opts : RunShellCommandOptions)
    (code : Nat) (so se : String)
    (hd : truthyB opts.dryRun = false)
    (hx : exec (withPiped (structuredOf cmd)) = .completed code so se) :
    runShellCommand exec cmd opts =
      .ok { result := applyEnhance opts (.exec (withPiped (structuredOf cmd)) code so se),
            hookCalls := match opts.onCmdComplete with
              | some _ =>
                  [.cmdCompleteHook
                    (applyEnhance opts (.exec (withPiped (structuredOf cmd)) code so se))]
              | none => [],
            output := match opts.onCmdComplete with
              | some f =>
                  f (applyEnhance opts (.exec (withPiped (structuredOf cmd)) code so se))
              | none => [],
            commandFinal := withPiped (structuredOf cmd) } := by
  simp [runShellCommand, hd, hx]

/-- Spawn-failure unfolding of the Runner. -/
theorem runShellCommand_spawnFail (exec : DenoRunOpts → ExecOutcome)
    (cmd : RunCommandSpec) (opts : RunShellCommandOptions) (msg : String)
    (hd : truthyB opts.dryRun = false)
    (hx : exec (withPiped (structuredOf cmd)) = .spawnFailure msg) :
    runShellCommand exec cmd opts = .error msg := by
  simp [runShellCommand, hd, hx]

/-- C1: per invocation of runShellCommand exactly one lifecycle hook
fires when supplied, the on-dry-run hook iff the dry-run flag is set
and the on-complete hook otherwise; in dry-run mode the process oracle
is never consulted (no process is spawned), the returned value is the
DryRunResult built from the structured command specification with the
result transformation already applied, and the fired hook receives the
final (possibly transformed) Result. -/
theorem runShellCommand_lifecycle
    (exec : DenoRunOpts → ExecOutcome) (cmd : RunCommandSpec)
    (opts : RunShellCommandOptions) (out : RunOutcome)
    (h : runShellCommand exec cmd opts = .ok out) :
    (truthyB opts.dryRun = true →
       (∀ exec2, runShellCommand exec2 cmd opts = runShellCommand exec cmd opts)
       ∧ out.result = applyEnhance opts (.dryRun (structuredOf cmd))
       ∧ out.hookCalls =
           (if opts.onDryRun.isSome then [.dryRunHook out.result] else []))
  ∧ (truthyB opts.dryRun = false →
       out.hookCalls =
         (if opts.onCmdComplete.isSome then [.cmdCompleteHook out.result] else [])) := by
  constructor
  · intro hd
    have he := runShellCommand_dry exec cmd opts hd
    rw [he] at h
    have hout := Except.ok.inj h
    subst hout
    refine ⟨fun exec2 => (runShellCommand_dry exec2 cmd opts hd).trans he.symm, rfl, ?_⟩
    cases hdr : opts.onDryRun <;> simp [hdr]
  · intro hd
    cases hx : exec (withPiped (structuredOf cmd)) with
    | spawnFailure msg =>
      rw [runShellCommand_spawnFail exec cmd opts msg hd hx] at h
      simp at h
    | completed code so se =>
      have he := runShellCommand_run exec cmd opts code so se hd hx
      rw [he] at h
      have hout := Except.ok.inj h
      subst hout
      cases hcc : opts.onCmdComplete <;> simp [hcc]

/-- Witness for claim C1: the dry-run test call fires the on-dry-run
hook once with the final result. -/
theorem runShellCommand_lifecycle_witness :
    runShellCommand okOracle (.str "git status -s") c1opts = .ok c1out
  ∧ c1out.result = applyEnhance c1opts (.dryRun (structuredOf (.str "git status -s")))
  ∧ c1out.hookCalls = [.dryRunHook c1out.result] := by
  refine ⟨rfl, ?_, ?_⟩
  · exact ((runShellCommand_lifecycle okOracle (.str "git status -s") c1opts c1out rfl).1
      rfl).2.1
  · have h := ((runShellCommand_lifecycle okOracle (.str "git status -s") c1opts c1out rfl).1
      rfl).2.2
    simpa [c1opts] using h

/-- C10: with a structured command specification and the dry-run flag
unset, the Runner sets the stdout and stderr fields of the
caller-owned options object to piped before spawning and leaves every
other field unchanged (the commandFinal field of the outcome models
the post-call state of the aliased caller object). -/
theorem runShellCommand_pipes_caller_options
    (exec : DenoRunOpts → ExecOutcome) (o : DenoRunOpts)
    (opts : RunShellCommandOptions) (out : RunOutcome)
    (hd : truthyB opts.dryRun = false)
    (h : runShellCommand exec (.opts o) opts = .ok out) :
    out.commandFinal = { o with stdout := some "piped", stderr := some "piped" }
  ∧ out.commandFinal.cmd = o.cmd
  ∧ out.commandFinal.cwd = o.cwd
  ∧ out.commandFinal.env = o.env := by
  cases hx : exec (withPiped (structuredOf (.opts o))) with
  | spawnFailure msg =>
    rw [runShellCommand_spawnFail exec (.opts o) opts msg hd hx] at h
    simp at h
  | completed code so se =>
    have he := runShellCommand_run exec (.opts o) opts code so se hd hx
    rw [he] at h
    have hout := Except.ok.inj h
    subst hout
    exact ⟨rfl, rfl, rfl, rfl⟩

/-- Witness for claim C10 at a concrete structured specification with
every optional field set. -/
theorem runShellCommand_pipes_caller_options_witness :
    runShellCommand c10oracle (.opts c10in) {} = .ok c10out
  ∧ (c10out.commandFinal = { c10in with stdout := some "piped", stderr := some "piped" }
     ∧ c10out.commandFinal.cmd = c10in.cmd
     ∧ c10out.commandFinal.cwd = c10in.cwd
     ∧ c10out.commandFinal.env = c10in.env) :=
  ⟨rfl, runShellCommand_pipes_caller_options c10oracle c10in {} c10out rfl rfl⟩

/-- C4 counterexample: in the src/shell.ts iteration of the builder the
override supplies its own on-dry-run hook, yet the built configuration
does not use it (the built hook is the formatting default, which
differs from the supplied quiet hook on a concrete dry-run result). -/
theorem blockOutputOptionsShellTs_cex :
    c4ov.onDryRun = some quietOnDryRun
  ∧ (cliVerboseShellBlockOutputOptionsShellTs c4bh (some c4ov)).onDryRun
      ≠ some quietOnDryRun := by
  refine ⟨rfl, fun h => ?_⟩
  have h' : some (blockOnDryRunDefault c4bh) = some quietOnDryRun := h
  have h2 := congrFun (Option.some.inj h') c4drr
  exact absurd h2 (by decide)

/-- C4 (amended): the part_000 iteration of the block-output builder
uses an override-supplied hook verbatim for both lifecycle hooks; the
shell.ts iteration does so only for the on-complete hook. -/
theorem blockOutputOptions_override
    (bh : RunShellCommandResult → CliVerboseShellBlockHeaderResult)
    (ov : RunShellCommandOptions)
    (f g : RunShellCommandResult → List OutEvent) :
    (ov.onDryRun = some f →
       (cliVerboseShellBlockOutputOptions bh (some ov)).onDryRun = some f)
  ∧ (ov.onCmdComplete = some g →
       (cliVerboseShellBlockOutputOptions bh (some ov)).onCmdComplete = some g)
  ∧ (ov.onCmdComplete = some g →
       (cliVerboseShellBlockOutputOptionsShellTs bh (some ov)).onCmdComplete = some g) := by
  refine ⟨fun h => ?_, fun h => ?_, fun h => ?_⟩ <;>
    simp [cliVerboseShellBlockOutputOptions, cliVerboseShellBlockOutputOptionsShellTs, h]

/-- Witness for the amended claim C4 at a concrete override. -/
theorem blockOutputOptions_override_witness :
    c4ov.onDryRun = some quietOnDryRun
  ∧ (cliVerboseShellBlockOutputOptions c4bh (some c4ov)).onDryRun = some quietOnDryRun :=
  ⟨rfl, (blockOutputOptions_override c4bh c4ov quietOnDryRun quietOnDryRun).1 rfl⟩

/-- C5 counterexample: the default on-complete hook of the
src/unnamed/part_001 iteration prints both captured bodies and sends
the header to standard output even for a successful result, diverging
from the claimed stream selection at this concrete executed result. -/
theorem blockOnCmdCompleteP001_cex :
    blockOnCmdCompleteP001 c5bh (.exec c5runOpts 0 "o" "e")
      = [⟨.stdout, "%ch\n"⟩, ⟨.stdout, "o"⟩, ⟨.stderr, "e"⟩, ⟨.stdout, "s\n"⟩]
  ∧ claimBlockCompleteOutput (c5bh (.exec c5runOpts 0 "o" "e")) 0 "o" "e"
      = [⟨.stdout, "h"⟩, ⟨.stdout, "o"⟩, ⟨.stdout, "s"⟩]
  ∧ blockOnCmdCompleteP001 c5bh (.exec c5runOpts 0 "o" "e")
      ≠ claimBlockCompleteOutput (c5bh (.exec c5runOpts 0 "o" "e")) 0 "o" "e" :=
  ⟨rfl, rfl, by decide⟩

/-- C5 (amended): the default on-complete hook of the part_000 and
shell.ts iterations behaves exactly as the claim describes (stream
selected by exit code, header, exactly one captured body unless
hide-body, separator); the part_001 iteration instead also writes the
captured stderr bytes to standard error whenever the hide-body flag is
unset, regardless of the exit code. -/
theorem blockOnCmdComplete_streams
    (bh : RunShellCommandResult → CliVerboseShellBlockHeaderResult)
    (d : DenoRunOpts) (code : Nat) (so se : String) :
    blockOnCmdCompleteDefault bh (.exec d code so se)
      = claimBlockCompleteOutput (bh (.exec d code so se)) code so se
  ∧ (truthyB (bh (.exec d code so se)).hideBlock = false →
       ⟨.stderr, se⟩ ∈ blockOnCmdCompleteP001 bh (.exec d code so se)) := by
  constructor
  · simp only [blockOnCmdCompleteDefault, claimBlockCompleteOutput]
    by_cases h0 : code = 0 <;> simp [h0]
  · intro hh
    simp [blockOnCmdCompleteP001, hh]

/-- Witness for the amended claim C5 at a concrete executed result. -/
theorem blockOnCmdComplete_streams_witness :
    truthyB ((c5bh (.exec c5runOpts 0 "o" "e")).hideBlock) = false
  ∧ ⟨.stderr, "e"⟩ ∈ blockOnCmdCompleteP001 c5bh (.exec c5runOpts 0 "o" "e") :=
  ⟨rfl, (blockOnCmdComplete_streams c5bh c5runOpts 0 "o" "e").2 rfl⟩

/-- Context built by the walk when no enhancement is configured. -/
theorem walkContext_none (rel : String → String) (wopts : WalkShellCommandOptions)
    (we : WalkEntry) (fj : Nat)
    (henh : wopts.enhanceWalkEntryContext = none) :
    walkContext rel wopts we fj = ⟨we, relPathOf rel wopts we, fj⟩ := by
  simp [walkContext, henh]

/-- Invariant of the walk loop: under a filter that depends only on the
underlying entry, the total counter advances once per entry, the
filtered counter once per accepted entry, and the observer trace
records the accepted entries in traversal order with consecutive
indices. -/
theorem walkGo_run
    (exec : DenoRunOpts → ExecOutcome) (rel : String → String)
    (command : WalkShellCommandSupplier) (wopts : WalkShellCommandOptions)
    (g : WalkEntry → Bool) (ef : WalkShellEntryContext → Bool)
    (obs : WalkShellEntryContext → RunShellCommandResult → List OutEvent)
    (hef : wopts.entryFilter = some ef)
    (hg : ∀ c, ef c = g c.we)
    (henh : wopts.enhanceWalkEntryContext = none)
    (hobs : wopts.onRunShellCommandResult = some obs) :
    ∀ (entries : List WalkEntry) (fi fj t f : Nat) (tr : List WalkTraceStep),
      walkGo exec rel command wopts entries fi fj = .ok (t, f, tr) →
      t = fi + entries.length ∧ f = fj + entries.countP g
      ∧ tr.map (fun st => st.ctx.index) = List.range' fj (entries.countP g)
      ∧ tr.map (fun st => st.ctx.we) = entries.filter g := by
  intro entries
  induction entries with
  | nil =>
    intro fi fj t f tr h
    simp only [walkGo, Except.ok.injEq, Prod.mk.injEq] at h
    obtain ⟨ht, hf, htr⟩ := h
    subst ht
    subst hf
    subst htr
    simp
  | cons we rest ih =>
    intro fi fj t f tr h
    simp only [walkGo] at h
    rw [walkContext_none rel wopts we fj henh] at h
    have hpass : walkPasses wopts ⟨we, relPathOf rel wopts we, fj⟩ = g we := by
      simp [walkPasses, hef, hg]
    rw [hpass] at h
    by_cases hgw : g we = true
    · rw [if_pos hgw] at h
      cases hr : runShellCommand exec
          (walkCmdOf (command ⟨we, relPathOf rel wopts we, fj⟩))
          (walkEffOf (walkBlockHeader (relPathOf rel wopts we)) wopts
            (command ⟨we, relPathOf rel wopts we, fj⟩)) with
      | error e =>
        rw [hr] at h
        simp at h
      | ok out =>
        rw [hr] at h
        cases hrec : walkGo exec rel command wopts rest (fi + 1) (fj + 1) with
        | error e =>
          rw [hrec] at h
          simp at h
        | ok trip =>
          obtain ⟨t', f', tr'⟩ := trip
          rw [hrec] at h
          rw [hobs] at h
          simp only [Except.ok.injEq, Prod.mk.injEq] at h
          obtain ⟨ht, hf, htr⟩ := h
          obtain ⟨iht, ihf, ihmi, ihmw⟩ := ih (fi + 1) (fj + 1) t' f' tr' hrec
          subst ht
          subst hf
          subst htr
          refine ⟨?_, ?_, ?_, ?_⟩
          · rw [iht]
            simp only [List.length_cons]
            omega
          · rw [ihf, List.countP_cons, hgw]
            simp only [if_true]
            omega
          · simp only [List.singleton_append, List.map_cons, ihmi]
            rw [List.countP_cons, hgw]
            simp only [if_true]
            rw [List.range'_succ]
          · simp only [List.singleton_append, List.map_cons, ihmw]
            rw [List.filter_cons, if_pos hgw]
    · rw [if_neg hgw] at h
      obtain ⟨iht, ihf, ihmi, ihmw⟩ := ih (fi + 1) fj t f tr h
      have hgw' : g we = false := by
        cases hgwv : g we
        · rfl
        · exact absurd hgwv hgw
      refine ⟨?_, ?_, ?_, ?_⟩
      · rw [iht]
        simp only [List.length_cons]
        omega
      · rw [ihf, List.countP_cons, hgw']
        simp
      · rw [ihmi, List.countP_cons, hgw']
        simp
      · rw [ihmw, List.filter_cons, hgw']
        simp

/-- C6: over a traversal of N entries of which the configured filter
rejects exactly K, the Walk Result counts N total entries and N-K
filtered entries, and the result-observer hook fires once per filtered
entry, exactly N-K times. -/
theorem walkShellCommand_totals
    (exec : DenoRunOpts → ExecOutcome) (rel : String → String)
    (entries : List WalkEntry) (command : WalkShellCommandSupplier)
    (wopts : WalkShellCommandOptions)
    (g : WalkEntry → Bool) (ef : WalkShellEntryContext → Bool)
    (obs : WalkShellEntryContext → RunShellCommandResult → List OutEvent)
    (res : WalkShellCommandResult) (tr : List WalkTraceStep)
    (hef : wopts.entryFilter = some ef)
    (hg : ∀ c, ef c = g c.we)
    (henh : wopts.enhanceWalkEntryContext = none)
    (hobs : wopts.onRunShellCommandResult = some obs)
    (hwr : wopts.enhanceWalkResult = none)
    (h : walkShellCommand exec rel entries command wopts = .ok (res, tr)) :
    res.totalEntriesEncountered = entries.length
  ∧ res.filteredEntriesEncountered = entries.countP g
  ∧ tr.length = entries.countP g := by
  cases hgo : walkGo exec rel command wopts entries 0 0 with
  | error e =>
    simp only [walkShellCommand, hgo] at h
    simp at h
  | ok trip =>
    obtain ⟨t, f, tr0⟩ := trip
    simp only [walkShellCommand, hgo, hwr, Except.ok.injEq, Prod.mk.injEq] at h
    obtain ⟨hres, htr⟩ := h
    subst htr
    obtain ⟨ht, hf, hmi, hmw⟩ :=
      walkGo_run exec rel command wopts g ef obs hef hg henh hobs entries 0 0 t f tr0 hgo
    refine ⟨?_, ?_, ?_⟩
    · rw [← hres, ht]
      simp
    · rw [← hres, hf]
      simp
    · have hlen := congrArg List.length hmi
      simpa using hlen

/-- Witness for claim C6: a three-entry walk whose filter rejects the
middle entry counts three total, two filtered, and two observer
invocations. -/
theorem walkShellCommand_totals_witness :
    walkShellCommand okOracle id [w67a, w67b, w67c] w67sup w67wopts = .ok (w67res, w67tr)
  ∧ (w67res.totalEntriesEncountered = [w67a, w67b, w67c].length
     ∧ w67res.filteredEntriesEncountered = [w67a, w67b, w67c].countP w67g
     ∧ w67tr.length = [w67a, w67b, w67c].countP w67g) :=
  ⟨rfl,
   walkShellCommand_totals okOracle id [w67a, w67b, w67c] w67sup w67wopts
     w67g w67filter w67obs w67res w67tr rfl (fun _ => rfl) rfl rfl rfl rfl⟩

/-- C7: entries are processed in the exact traversal order and the
index recorded in each observed context increases by one per filtered
entry starting at zero: the observed indices are the range from zero
and the observed entries are the traversal filtered in order. -/
theorem walkShellCommand_ordering
    (exec : DenoRunOpts → ExecOutcome) (rel : String → String)
    (entries : List WalkEntry) (command : WalkShellCommandSupplier)
    (wopts : WalkShellCommandOptions)
    (g : WalkEntry → Bool) (ef : WalkShellEntryContext → Bool)
    (obs : WalkShellEntryContext → RunShellCommandResult → List OutEvent)
    (res : WalkShellCommandResult) (tr : List WalkTraceStep)
    (hef : wopts.entryFilter = some ef)
    (hg : ∀ c, ef c = g c.we)
    (henh : wopts.enhanceWalkEntryContext = none)
    (hobs : wopts.onRunShellCommandResult = some obs)
    (hwr : wopts.enhanceWalkResult = none)
    (h : walkShellCommand exec rel entries command wopts = .ok (res, tr)) :
    tr.map (fun st => st.ctx.index) = List.range (entries.countP g)
  ∧ tr.map (fun st => st.ctx.we) = entries.filter g := by
  cases hgo : walkGo exec rel command wopts entries 0 0 with
  | error e =>
    simp only [walkShellCommand, hgo] at h
    simp at h
  | ok trip =>
    obtain ⟨t, f, tr0⟩ := trip
    simp only [walkShellCommand, hgo, hwr, Except.ok.injEq, Prod.mk.injEq] at h
    obtain ⟨hres, htr⟩ := h
    subst htr
    obtain ⟨ht, hf, hmi, hmw⟩ :=
      walkGo_run exec rel command wopts g ef obs hef hg henh hobs entries 0 0 t f tr0 hgo
    exact ⟨by rw [hmi, List.range_eq_range'], hmw⟩

/-- Witness for claim C7: the same three-entry walk observes indices
zero and one, in traversal order. -/
theorem walkShellCommand_ordering_witness :
    walkShellCommand okOracle id [w67a, w67b, w67c] w67sup w67wopts = .ok (w67res, w67tr)
  ∧ (w67tr.map (fun st => st.ctx.index) = List.range ([w67a, w67b, w67c].countP w67g)
     ∧ w67tr.map (fun st => st.ctx.we) = [w67a, w67b, w67c].filter w67g) :=
  ⟨rfl,
   walkShellCommand_ordering okOracle id [w67a, w67b, w67c] w67sup w67wopts
     w67g w67filter w67obs w67res w67tr rfl (fun _ => rfl) rfl rfl rfl rfl⟩

/-- C8: a failure to spawn the process propagates out of the Runner as
an error, never converted into a Result; the Walk Dispatcher does not
catch it, so the walk over any traversal starting with such an entry
returns the same error whatever the remaining entries are: the
remaining traversal is aborted and never executed. -/
theorem spawnFailure_propagates :
    (∀ (exec : DenoRunOpts → ExecOutcome) (cmd : RunCommandSpec)
       (opts : RunShellCommandOptions) (msg : String),
       truthyB opts.dryRun = false →
       exec (withPiped (structuredOf cmd)) = .spawnFailure msg →
       runShellCommand exec cmd opts = .error msg)
  ∧ (∀ (exec : DenoRunOpts → ExecOutcome) (rel : String → String)
       (we : WalkEntry) (rest : List WalkEntry) (command : WalkShellCommandSupplier)
       (wopts : WalkShellCommandOptions) (cspec : RunCommandSpec) (msg : String),
       wopts.entryFilter = none →
       (∀ ctx, command ctx = .cmd cspec) →
       truthyB wopts.dryRun = false →
       exec (withPiped (structuredOf cspec)) = .spawnFailure msg →
       walkShellCommand exec rel (we :: rest) command wopts = .error msg) := by
  constructor
  · intro exec cmd opts msg hd hx
    exact runShellCommand_spawnFail exec cmd opts msg hd hx
  · intro exec rel we rest command wopts cspec msg hfil hcmd hd hx
    have hrun : runShellCommand exec cspec
        (walkEffOf (walkBlockHeader (relPathOf rel wopts we)) wopts (.cmd cspec))
          = .error msg := by
      apply runShellCommand_spawnFail _ _ _ _ _ hx
      simpa [walkEffOf, spreadBlock] using hd
    simp only [walkShellCommand, walkGo, hcmd, walkPasses, hfil, walkCmdOf]
    rw [hrun]
    simp

/-- Witness for claim C8: a concrete two-entry walk whose first spawn
fails returns the spawn error and never reaches the second entry. -/
theorem spawnFailure_propagates_witness :
    runShellCommand c8oracle (.str "x") {} = .error "spawn failed"
  ∧ walkShellCommand c8oracle id [c3entry, c8we2] c8sup {} = .error "spawn failed" := by
  constructor
  · exact spawnFailure_propagates.1 c8oracle (.str "x") {} "spawn failed" rfl rfl
  · exact spawnFailure_propagates.2 c8oracle id c3entry [c8we2] c8sup {}
      (.str "x") "spawn failed" rfl (fun _ => rfl) rfl rfl

/-- C3 counterexample: with the walk-level dry-run flag set and a
per-entry override that does not set it, the walk actually spawns the
command (the observed result is an executed result), whereas under the
effective configuration the claim describes, the override merged over
the walk-level configuration, the very same call would have been a dry
run.  The per-entry override is therefore not merged over the
walk-level configuration: the walk-level configuration is dropped. -/
theorem walkShellCommand_option_layering_cex :
    (walkShellCommand okOracle id [c3entry] c3supplier c3wopts).map
        (fun p => p.2.map fun st => isDryRunResult st.result) = .ok [false]
  ∧ (runShellCommand okOracle (.str "x")
        (specEffectiveRunOptions (walkBlockHeader "p")
          c3wopts.toRunShellCommandOptions {})).map
        (fun out => isDryRunResult out.result) = .ok true := by
  constructor
  · rfl
  · rfl

/-- C3 (amended): when the supplier yields a command together with a
per-entry override, the effective configuration passed to the Command
Runner is the override with the block-formatting hooks of the entry
merged in last; the walk-level configuration contributes nothing to it
(it is used only when the supplier yields no override). -/
theorem walkShellCommand_pair_options
    (exec : DenoRunOpts → ExecOutcome) (rel : String → String) (we : WalkEntry)
    (cspec : RunCommandSpec) (ovr : RunShellCommandOptions)
    (wopts : WalkShellCommandOptions)
    (henh : wopts.enhanceWalkEntryContext = none)
    (hfil : wopts.entryFilter = none)
    (hrp : wopts.relPathSupplier = none)
    (hwr : wopts.enhanceWalkResult = none) :
    walkShellCommand exec rel [we] (fun _ => .cmdWithOptions cspec ovr) wopts =
      (runShellCommand exec cspec (spreadBlock (walkBlockHeader (rel we.path)) ovr)).map
        (fun out =>
          ({ totalEntriesEncountered := 1, filteredEntriesEncountered := 1 },
           match wopts.onRunShellCommandResult with
           | some _ => [⟨⟨we, rel we.path, 0⟩, out.result⟩]
           | none => [])) := by
  have hrel : relPathOf rel wopts we = rel we.path := by
    simp [relPathOf, hrp]
  have hctx : walkContext rel wopts we 0 = ⟨we, rel we.path, 0⟩ := by
    rw [walkContext_none rel wopts we 0 henh, hrel]
  simp only [walkShellCommand, walkGo, hctx, walkPasses, hfil, hrel, walkCmdOf, walkEffOf]
  cases hr : runShellCommand exec cspec (spreadBlock (walkBlockHeader (rel we.path)) ovr) with
  | error e =>
    simp [Except.map]
  | ok out =>
    simp only [hwr, Except.map]
    cases wopts.onRunShellCommandResult <;> simp

/-- Witness for the amended claim C3 at a concrete entry, override and
oracle. -/
theorem walkShellCommand_pair_options_witness :
    walkShellCommand okOracle id [c3entry] (fun _ => .cmdWithOptions (.str "x") {})
        ({} : WalkShellCommandOptions) =
      (runShellCommand okOracle (.str "x")
          (spreadBlock (walkBlockHeader (id c3entry.path)) {})).map
        (fun out =>
          ({ totalEntriesEncountered := 1, filteredEntriesEncountered := 1 },
           match ({} : WalkShellCommandOptions).onRunShellCommandResult with
           | some _ => [⟨⟨c3entry, id c3entry.path, 0⟩, out.result⟩]
           | none => [])) :=
  walkShellCommand_pair_options okOracle id c3entry (.str "x") {} {} rfl rfl rfl rfl
